import Mathlib

/-!
Verification development for the maush maubot plugin (maubot/maush).

The program relays user scripts from a chat room to a remote execution
backend, renders the backend's stdout/stderr back into the room with
truncation and ANSI-to-HTML conversion, applies backend-proposed room
metadata mutations under a trust gate, and manages a reaction-triggered
deletion registry.

Python strings are modelled as `List Char` (Python 3 `str` is a sequence
of code points, and `len`/slicing on it count code points). Stateful
handlers are modelled as pure functions from their inputs (configuration,
event, cached metadata, backend response) to the ordered list of outward
actions they perform plus the updated cache state.
-/

set_option maxRecDepth 8000

/-- Python strings as lists of characters. -/
abbrev Str := List Char

/-- Literal helper: a Lean string literal viewed as a `Str`. -/
def lit (s : String) : Str := s.data

/-- Whitespace recognized by Python `str.strip()` (the ASCII whitespace
characters; the exotic Unicode space classes never arise in the claims). -/
def pySpace (c : Char) : Bool :=
  c = ' ' || c = '\t' || c = '\n' || c = '\r' || c = Char.ofNat 11 || c = Char.ofNat 12

/-- Remove trailing whitespace, as the second half of Python `str.strip()`. -/
def stripEnd (l : Str) : Str :=
  (l.reverse.dropWhile pySpace).reverse

/-- Python `str.strip()`: drop leading and trailing whitespace. -/
def pyStrip (l : Str) : Str :=
  stripEnd (l.dropWhile pySpace)

/-- Python `s.count("\n")`. -/
def countNl (l : Str) : Nat := l.count '\n'

/-- Python `s.split("\n")` (no maxsplit): split at every newline, keeping
empty parts, with `"".split("\n") = [""]`. -/
def splitNl : Str → List Str
  | [] => [[]]
  | c :: rest =>
    if c = '\n' then [] :: splitNl rest
    else
      match splitNl rest with
      | [] => [[c]]
      | p :: ps => (c :: p) :: ps

/-- Python `"\n".join(parts)`. -/
def joinNl : List Str → Str
  | [] => []
  | [p] => p
  | p :: ps => p ++ '\n' :: joinNl ps

/-- The line limit applied to each output stream (`LINE_LIMIT`). -/
def LINE_LIMIT : Nat := 256

/-- The byte limit applied to each output stream (`BYTE_LIMIT`). -/
def BYTE_LIMIT : Nat := 8192

/-- The ellipsis marker appended on truncation (`ELLIPSIS = "[…]"`). -/
def ELLIPSIS : Str := lit "[…]"

/-- The stdout/stderr truncation policy of `_exec` (maush/maush.py lines
200-213): strip, then cut to the first `LINE_LIMIT` lines plus an ellipsis
line when the newline count exceeds `LINE_LIMIT`, then hard-cut to
`BYTE_LIMIT - ELLIPSIS.length` characters plus the ellipsis when the length
exceeds `BYTE_LIMIT`. -/
def truncOut (s : Str) : Str :=
  let t := pyStrip s
  let t := if LINE_LIMIT < countNl t
    then joinNl ((splitNl t).take LINE_LIMIT ++ [ELLIPSIS])
    else t
  if BYTE_LIMIT < t.length then t.take (BYTE_LIMIT - ELLIPSIS.length) ++ ELLIPSIS else t

example : truncOut (lit "  hi\n") = lit "hi" := by decide
example : ELLIPSIS.length = 3 := by decide

/-- Characters surviving the front of a `dropWhile pySpace` are non-space. -/
lemma head?_dropWhile_not (l : Str) (c : Char)
    (h : (l.dropWhile pySpace).head? = some c) : pySpace c = false := by
  induction l with
  | nil => simp at h
  | cons a t ih =>
    by_cases ha : pySpace a
    · rw [List.dropWhile_cons, if_pos ha] at h
      exact ih h
    · rw [List.dropWhile_cons, if_neg ha] at h
      simp only [List.head?_cons, Option.some.injEq] at h
      subst h
      simpa using ha

/-- The head that survives `stripEnd` was the head of the input. -/
lemma stripEnd_head? (l : Str) (c : Char)
    (h : (stripEnd l).head? = some c) : l.head? = some c := by
  obtain ⟨s, hs⟩ := List.dropWhile_suffix (l := l.reverse) pySpace
  have hl : l = stripEnd l ++ s.reverse := by
    have := congrArg List.reverse hs
    simpa [stripEnd, List.reverse_append] using this.symm
  cases hse : stripEnd l with
  | nil => rw [hse] at h; simp at h
  | cons e m =>
    rw [hse] at h
    simp only [List.head?_cons, Option.some.injEq] at h
    subst h
    rw [hl, hse]
    rfl

/-- The head of a stripped string is never whitespace. -/
lemma pyStrip_head_not (l : Str) (c : Char)
    (h : (pyStrip l).head? = some c) : pySpace c = false :=
  head?_dropWhile_not l c (stripEnd_head? _ c h)

/-- The last character of a stripped string is never whitespace. -/
lemma pyStrip_getLast_not (l : Str) (c : Char)
    (h : (pyStrip l).getLast? = some c) : pySpace c = false := by
  have : (List.dropWhile pySpace (l.dropWhile pySpace).reverse).head? = some c := by
    have := h
    rw [pyStrip, stripEnd, List.getLast?_reverse] at this
    exact this
  exact head?_dropWhile_not _ c this

/-- Stripping trailing whitespace is a no-op when the final character is
not whitespace. -/
lemma stripEnd_concat_of_not (xs : Str) (a : Char) (ha : pySpace a = false) :
    stripEnd (xs ++ [a]) = xs ++ [a] := by
  simp [stripEnd, List.reverse_append, List.dropWhile_cons, ha]

/-- Stripping is a no-op on a string whose first and last characters are
not whitespace. -/
lemma pyStrip_noop (l : Str)
    (hh : ∀ c, l.head? = some c → pySpace c = false)
    (hl : ∀ c, l.getLast? = some c → pySpace c = false) : pyStrip l = l := by
  cases l with
  | nil => rfl
  | cons c t =>
    have hc : pySpace c = false := hh c rfl
    have hne : (c :: t : Str) ≠ [] := by simp
    have hdrop : (c :: t).dropWhile pySpace = c :: t := by
      rw [List.dropWhile_cons, if_neg (by simp [hc])]
    have ha : pySpace ((c :: t).getLast hne) = false := by
      apply hl
      exact List.getLast?_eq_getLast _ hne
    rw [pyStrip, hdrop]
    calc stripEnd (c :: t)
        = stripEnd ((c :: t).dropLast ++ [(c :: t).getLast hne]) := by
          rw [List.dropLast_append_getLast hne]
      _ = (c :: t).dropLast ++ [(c :: t).getLast hne] :=
          stripEnd_concat_of_not _ _ ha
      _ = c :: t := List.dropLast_append_getLast hne

/-- Stripping is idempotent. -/
lemma pyStrip_idem (l : Str) : pyStrip (pyStrip l) = pyStrip l :=
  pyStrip_noop _ (pyStrip_head_not l) (pyStrip_getLast_not l)

/-- Splitting on newlines never yields the empty list of parts. -/
lemma splitNl_ne_nil (s : Str) : splitNl s ≠ [] := by
  cases s with
  | nil => simp [splitNl]
  | cons c t =>
    by_cases hc : c = '\n'
    · simp [splitNl, hc]
    · cases h : splitNl t with
      | nil => simp [splitNl, hc, h]
      | cons p ps => simp [splitNl, hc, h]

/-- The number of newline-split parts is the newline count plus one. -/
lemma splitNl_length (s : Str) : (splitNl s).length = countNl s + 1 := by
  induction s with
  | nil => simp [splitNl, countNl]
  | cons c t ih =>
    by_cases hc : c = '\n'
    · simp [splitNl, hc, countNl, List.count_cons] at *
      omega
    · cases h : splitNl t with
      | nil => exact absurd h (splitNl_ne_nil t)
      | cons p ps =>
        rw [h] at ih
        simp [splitNl, hc, h, countNl, List.count_cons] at *
        omega

/-- Newline-split parts contain no newline. -/
lemma splitNl_no_nl (s : Str) : ∀ p ∈ splitNl s, p.count '\n' = 0 := by
  induction s with
  | nil => intro p hp; simp [splitNl] at hp; simp [hp]
  | cons c t ih =>
    intro p hp
    by_cases hc : c = '\n'
    · simp [splitNl, hc] at hp
      rcases hp with hp | hp
      · simp [hp]
      · exact ih p hp
    · cases h : splitNl t with
      | nil => exact absurd h (splitNl_ne_nil t)
      | cons q ps =>
        rw [splitNl, if_neg hc, h] at hp
        simp at hp
        rcases hp with hp | hp
        · subst hp
          have hq : q.count '\n' = 0 := ih q (by rw [h]; exact List.mem_cons_self _ _)
          simp [List.count_cons, hc, hq]
        · exact ih p (by rw [h]; exact List.mem_cons_of_mem _ hp)

/-- Joining a two-element-or-longer list inserts a newline after the head. -/
lemma joinNl_cons (p : Str) (ps : List Str) (h : ps ≠ []) :
    joinNl (p :: ps) = p ++ '\n' :: joinNl ps := by
  cases ps with
  | nil => contradiction
  | cons q r => rfl

/-- Joining newline-free parts yields one fewer newline than parts. -/
lemma joinNl_count (ps : List Str) (h : ∀ p ∈ ps, p.count '\n' = 0) :
    countNl (joinNl ps) = ps.length - 1 := by
  induction ps with
  | nil => simp [joinNl, countNl]
  | cons p qs ih =>
    cases qs with
    | nil => simpa [joinNl, countNl] using h p (by simp)
    | cons q r =>
      have hp : p.count '\n' = 0 := h p (by simp)
      have hrest := ih (fun x hx => h x (List.mem_cons_of_mem _ hx))
      rw [joinNl_cons p _ (by simp)]
      simp [countNl, List.count_append, List.count_cons] at *
      omega

/-- Joining with a final extra part appends a newline and that part. -/
lemma joinNl_concat (ps : List Str) (q : Str) (h : ps ≠ []) :
    joinNl (ps ++ [q]) = joinNl ps ++ '\n' :: q := by
  induction ps with
  | nil => contradiction
  | cons p r ih =>
    cases r with
    | nil => rfl
    | cons p' r' =>
      rw [List.cons_append, joinNl_cons p _ (by simp),
        joinNl_cons p _ (by simp), ih (by simp)]
      simp

/-- Taking a prefix of a string cannot increase its newline count. -/
lemma countNl_take_le (l : Str) (n : Nat) : countNl (l.take n) ≤ countNl l :=
  List.Sublist.count_le (List.take_sublist n l) '\n'

/-- The output of the truncation policy is already stripped, within the
line limit and within the byte limit. -/
lemma truncOut_fix (s : Str) :
    pyStrip (truncOut s) = truncOut s ∧
    countNl (truncOut s) ≤ LINE_LIMIT ∧
    (truncOut s).length ≤ BYTE_LIMIT := by
  rw [truncOut]
  set t0 := pyStrip s with ht0
  by_cases hline : LINE_LIMIT < countNl t0
  · -- the line cut fires; the result has exactly LINE_LIMIT newlines
    rw [if_pos hline]
    set parts := (splitNl t0).take LINE_LIMIT with hparts
    set lc := joinNl (parts ++ [ELLIPSIS]) with hlc
    have hplen : parts.length = LINE_LIMIT := by
      rw [hparts, List.length_take, splitNl_length]
      omega
    have hpne : parts ≠ [] := by
      intro h
      rw [h] at hplen
      simp [LINE_LIMIT] at hplen
    have hnonl : ∀ p ∈ parts ++ [ELLIPSIS], p.count '\n' = 0 := by
      intro p hp
      rcases List.mem_append.mp hp with hp | hp
      · exact splitNl_no_nl t0 p (List.mem_of_mem_take hp)
      · simp at hp
        subst hp
        decide
    have hlcCount : countNl lc = LINE_LIMIT := by
      rw [hlc, joinNl_count _ hnonl]
      simp [hplen]
    -- the head of lc is the non-space head of t0
    have ht0ne : t0 ≠ [] := by
      intro h
      rw [h] at hline
      simp [countNl, LINE_LIMIT] at hline
    obtain ⟨c, t1, hct⟩ := List.exists_cons_of_ne_nil ht0ne
    have hcns : pySpace c = false := pyStrip_head_not s c (by rw [← ht0, hct]; rfl)
    have hcnl : c ≠ '\n' := by
      intro h
      rw [h] at hcns
      simp [pySpace] at hcns
    obtain ⟨p0, ps0, hsplit⟩ : ∃ p0 ps0, splitNl t0 = (c :: p0) :: ps0 := by
      rw [hct, splitNl, if_neg hcnl]
      cases h : splitNl t1 with
      | nil => exact absurd h (splitNl_ne_nil t1)
      | cons a b => exact ⟨a, b, rfl⟩
    have hlcHead : ∃ m, lc = c :: m := by
      rw [hlc, hparts, hsplit]
      rw [show LINE_LIMIT = 255 + 1 from rfl, List.take_succ_cons]
      rw [List.cons_append, joinNl_cons _ _ (by simp)]
      exact ⟨_, rfl⟩
    have hlcLast : lc.getLast? = some ']' := by
      rw [hlc, joinNl_concat _ _ hpne]
      rw [List.getLast?_append]
      have hE : ('\n' :: ELLIPSIS : Str).getLast? = some ']' := by decide
      rw [hE]
      rfl
    obtain ⟨m, hm⟩ := hlcHead
    by_cases hbyte : BYTE_LIMIT < lc.length
    · rw [if_pos hbyte]
      set r := lc.take (BYTE_LIMIT - ELLIPSIS.length) ++ ELLIPSIS with hr
      have hrHead : ∃ m', r = c :: m' := by
        rw [hr, hm, show BYTE_LIMIT - ELLIPSIS.length = 8188 + 1 from rfl,
          List.take_succ_cons]
        exact ⟨_, rfl⟩
      obtain ⟨m', hm'⟩ := hrHead
      refine ⟨?_, ?_, ?_⟩
      · apply pyStrip_noop
        · intro d hd
          rw [hm'] at hd
          simp only [List.head?_cons, Option.some.injEq] at hd
          subst hd
          exact hcns
        · intro d hd
          rw [hr, List.getLast?_append] at hd
          have hE : (ELLIPSIS.getLast? : Option Char) = some ']' := by decide
          rw [hE] at hd
          simp only [Option.or, Option.some.injEq] at hd
          subst hd
          decide
      · rw [hr]
        calc countNl (lc.take (BYTE_LIMIT - ELLIPSIS.length) ++ ELLIPSIS)
            = countNl (lc.take (BYTE_LIMIT - ELLIPSIS.length)) + countNl ELLIPSIS :=
              List.count_append _ _ _
          _ ≤ countNl lc + 0 := by
              have := countNl_take_le lc (BYTE_LIMIT - ELLIPSIS.length)
              have hE : countNl ELLIPSIS = 0 := by decide
              omega
          _ ≤ LINE_LIMIT := by omega
      · rw [hr, List.length_append, List.length_take]
        have : BYTE_LIMIT - ELLIPSIS.length ≤ lc.length := by omega
        simp [ELLIPSIS, lit, BYTE_LIMIT]
    · rw [if_neg hbyte]
      refine ⟨?_, by omega, by omega⟩
      apply pyStrip_noop
      · intro d hd
        rw [hm] at hd
        simp only [List.head?_cons, Option.some.injEq] at hd
        subst hd
        exact hcns
      · intro d hd
        rw [hlcLast] at hd
        simp only [Option.some.injEq] at hd
        subst hd
        decide
  · -- no line cut
    rw [if_neg hline]
    by_cases hbyte : BYTE_LIMIT < t0.length
    · rw [if_pos hbyte]
      have ht0ne : t0 ≠ [] := by
        intro h
        rw [h] at hbyte
        simp [BYTE_LIMIT] at hbyte
      obtain ⟨c, t1, hct⟩ := List.exists_cons_of_ne_nil ht0ne
      have hcns : pySpace c = false := pyStrip_head_not s c (by rw [← ht0, hct]; rfl)
      set r := t0.take (BYTE_LIMIT - ELLIPSIS.length) ++ ELLIPSIS with hr
      have hrHead : ∃ m', r = c :: m' := by
        rw [hr, hct, show BYTE_LIMIT - ELLIPSIS.length = 8188 + 1 from rfl,
          List.take_succ_cons]
        exact ⟨_, rfl⟩
      obtain ⟨m', hm'⟩ := hrHead
      refine ⟨?_, ?_, ?_⟩
      · apply pyStrip_noop
        · intro d hd
          rw [hm'] at hd
          simp only [List.head?_cons, Option.some.injEq] at hd
          subst hd
          exact hcns
        · intro d hd
          rw [hr, List.getLast?_append] at hd
          have hE : (ELLIPSIS.getLast? : Option Char) = some ']' := by decide
          rw [hE] at hd
          simp only [Option.or, Option.some.injEq] at hd
          subst hd
          decide
      · rw [hr]
        calc countNl (t0.take (BYTE_LIMIT - ELLIPSIS.length) ++ ELLIPSIS)
            = countNl (t0.take (BYTE_LIMIT - ELLIPSIS.length)) + countNl ELLIPSIS :=
              List.count_append _ _ _
          _ ≤ countNl t0 + 0 := by
              have := countNl_take_le t0 (BYTE_LIMIT - ELLIPSIS.length)
              have hE : countNl ELLIPSIS = 0 := by decide
              omega
          _ ≤ LINE_LIMIT := by omega
      · rw [hr, List.length_append, List.length_take]
        have : BYTE_LIMIT - ELLIPSIS.length ≤ t0.length := by omega
        simp [ELLIPSIS, lit, BYTE_LIMIT]
    · rw [if_neg hbyte]
      exact ⟨pyStrip_idem s, by omega, by omega⟩

/-- Splitting a newline-free string yields that single part. -/
lemma splitNl_of_no_nl (p : Str) (h : p.count '\n' = 0) : splitNl p = [p] := by
  induction p with
  | nil => rfl
  | cons c t ih =>
    have hc : c ≠ '\n' := by
      intro he
      simp [he, List.count_cons] at h
    have ht : t.count '\n' = 0 := by
      simp [List.count_cons, hc] at h
      omega
    rw [splitNl, if_neg hc, ih ht]

/-- Splitting after a newline-free head part peels that part off. -/
lemma splitNl_append_nl (p rest : Str) (h : p.count '\n' = 0) :
    splitNl (p ++ '\n' :: rest) = p :: splitNl rest := by
  induction p with
  | nil => simp [splitNl]
  | cons c t ih =>
    have hc : c ≠ '\n' := by
      intro he
      simp [he, List.count_cons] at h
    have ht : t.count '\n' = 0 := by
      simp [List.count_cons, hc] at h
      omega
    rw [List.cons_append, splitNl, if_neg hc, ih ht]

/-- Splitting inverts joining for a nonempty list of newline-free parts. -/
lemma splitNl_joinNl (ps : List Str) (hne : ps ≠ [])
    (h : ∀ p ∈ ps, p.count '\n' = 0) : splitNl (joinNl ps) = ps := by
  induction ps with
  | nil => contradiction
  | cons p qs ih =>
    cases qs with
    | nil => exact splitNl_of_no_nl p (h p (by simp))
    | cons q r =>
      rw [joinNl_cons p _ (by simp), splitNl_append_nl p _ (h p (by simp)),
        ih (by simp) (fun x hx => h x (List.mem_cons_of_mem _ hx))]

/-- C9: the stdout/stderr truncation policy (strip, then line cut, then
byte cut) is idempotent — applying it twice equals applying it once. -/
theorem truncation_idempotent (s : Str) : truncOut (truncOut s) = truncOut s := by
  obtain ⟨h1, h2, h3⟩ := truncOut_fix s
  rw [truncOut]
  rw [h1, if_neg (show ¬ LINE_LIMIT < countNl (truncOut s) by omega),
    if_neg (show ¬ BYTE_LIMIT < (truncOut s).length by omega)]

/-- C3 counterexample: a trimmed input of exactly 257 lines has a line
count exceeding 256, yet the code's truncation (whose guard is
`stdout.count("\n") > 256`, a newline count) leaves it untouched instead
of keeping the first 256 lines and appending an ellipsis line. -/
theorem line_threshold_counterexample :
    (splitNl (pyStrip (joinNl (List.replicate 257 (lit "a"))))).length = 257 ∧
    256 < (splitNl (pyStrip (joinNl (List.replicate 257 (lit "a"))))).length ∧
    truncOut (joinNl (List.replicate 257 (lit "a"))) =
      joinNl (List.replicate 257 (lit "a")) ∧
    truncOut (joinNl (List.replicate 257 (lit "a"))) ≠
      joinNl ((splitNl (pyStrip (joinNl (List.replicate 257 (lit "a"))))).take 256
        ++ [ELLIPSIS]) := by
  refine ⟨by decide, by decide, by decide, by decide⟩

/-- C3 (amended): after trimming, when the newline count exceeds 256
(equivalently, the line count exceeds 257) the output keeps only the first
256 lines plus exactly one appended ellipsis line; independently, when the
length of the possibly line-truncated text exceeds 8192, it is hard-cut to
`8192 - ELLIPSIS.length` characters with the ellipsis appended. -/
theorem truncation_policy (s : Str) :
    (256 < countNl (pyStrip s) →
      (joinNl ((splitNl (pyStrip s)).take 256 ++ [ELLIPSIS])).length ≤ 8192 →
      splitNl (truncOut s) = (splitNl (pyStrip s)).take 256 ++ [ELLIPSIS]) ∧
    (256 < countNl (pyStrip s) →
      8192 < (joinNl ((splitNl (pyStrip s)).take 256 ++ [ELLIPSIS])).length →
      truncOut s = (joinNl ((splitNl (pyStrip s)).take 256 ++ [ELLIPSIS])).take 8189
        ++ ELLIPSIS) ∧
    (countNl (pyStrip s) ≤ 256 → 8192 < (pyStrip s).length →
      truncOut s = (pyStrip s).take 8189 ++ ELLIPSIS) ∧
    (countNl (pyStrip s) ≤ 256 → (pyStrip s).length ≤ 8192 →
      truncOut s = pyStrip s) := by
  have hparts : ∀ p ∈ (splitNl (pyStrip s)).take 256 ++ [ELLIPSIS], p.count '\n' = 0 := by
    intro p hp
    rcases List.mem_append.mp hp with hp | hp
    · exact splitNl_no_nl _ p (List.mem_of_mem_take hp)
    · simp at hp
      subst hp
      decide
  refine ⟨?_, ?_, ?_, ?_⟩
  · intro h1 h2
    rw [truncOut]
    rw [if_pos (show LINE_LIMIT < countNl (pyStrip s) from h1),
      if_neg (show ¬ BYTE_LIMIT < (joinNl ((splitNl (pyStrip s)).take LINE_LIMIT
        ++ [ELLIPSIS])).length by simp only [LINE_LIMIT, BYTE_LIMIT]; omega)]
    exact splitNl_joinNl _ (by simp) hparts
  · intro h1 h2
    rw [truncOut]
    rw [if_pos (show LINE_LIMIT < countNl (pyStrip s) from h1),
      if_pos (show BYTE_LIMIT < (joinNl ((splitNl (pyStrip s)).take LINE_LIMIT
        ++ [ELLIPSIS])).length by simp only [LINE_LIMIT, BYTE_LIMIT]; omega)]
    rfl
  · intro h1 h2
    rw [truncOut]
    rw [if_neg (show ¬ LINE_LIMIT < countNl (pyStrip s) by simp only [LINE_LIMIT]; omega),
      if_pos (show BYTE_LIMIT < (pyStrip s).length by simp only [BYTE_LIMIT]; omega)]
    rfl
  · intro h1 h2
    rw [truncOut]
    rw [if_neg (show ¬ LINE_LIMIT < countNl (pyStrip s) by simp only [LINE_LIMIT]; omega),
      if_neg (show ¬ BYTE_LIMIT < (pyStrip s).length by simp only [BYTE_LIMIT]; omega)]

/-- C3 witness: the 300-line input keeps its first 256 lines plus one
ellipsis line, and the 9000-character single-line input is cut to 8189
characters plus the ellipsis. -/
theorem truncation_policy_witness :
    splitNl (truncOut (joinNl (List.replicate 300 (lit "a")))) =
      (splitNl (pyStrip (joinNl (List.replicate 300 (lit "a"))))).take 256
        ++ [ELLIPSIS] ∧
    truncOut (List.replicate 9000 'a') =
      (pyStrip (List.replicate 9000 'a')).take 8189 ++ ELLIPSIS := by
  have hhead : ∀ (l : Str) (c : Char), l.head? = some c → c ∈ l := by
    intro l c h
    cases l with
    | nil => simp at h
    | cons a t =>
      simp only [List.head?_cons, Option.some.injEq] at h
      subst h
      exact List.mem_cons_self _ _
  have hrep : pyStrip (List.replicate 9000 'a') = List.replicate 9000 'a' := by
    apply pyStrip_noop
    · intro c hc
      have hm := hhead _ _ hc
      rw [List.eq_of_mem_replicate hm]
      decide
    · intro c hc
      have hm : c ∈ (List.replicate 9000 'a' : Str).reverse := by
        apply hhead
        rw [List.head?_reverse]
        exact hc
      rw [List.eq_of_mem_replicate (List.mem_reverse.mp hm)]
      decide
  constructor
  · exact (truncation_policy (joinNl (List.replicate 300 (lit "a")))).1
      (by decide) (by decide)
  · refine (truncation_policy (List.replicate 9000 'a')).2.2.1 ?_ ?_
    · rw [hrep]
      show (List.replicate 9000 'a').count '\n' ≤ 256
      rw [List.count_replicate, if_neg (by decide)]
      omega
    · rw [hrep, List.length_replicate]
      omega

/-- Python `html.escape` with default quoting, character by character. -/
def escapeChar (c : Char) : Str :=
  if c = '&' then lit "&amp;"
  else if c = '<' then lit "&lt;"
  else if c = '>' then lit "&gt;"
  else if c = '"' then lit "&quot;"
  else if c = '\'' then lit "&#x27;"
  else [c]

/-- Python `html.escape(s)` (quote=True). -/
def htmlEscape (s : Str) : Str := (s.map escapeChar).flatten

/-- A color value, carried by the hex rendering the converter interpolates
into the font tag (`f' color="{fg.hex}"'`). The color-space math producing
it (the ochre library) is a pure numeric utility declared out of scope by
the spec, so colors are modelled by their observable hex string. -/
structure ColorV where
  hex : Str
deriving DecidableEq

/-- The hex rendering of `RGB(0, 0, 0)`, the reverse-video fallback
foreground. -/
def blackRGB : ColorV := ⟨lit "#000000"⟩

/-- The hex rendering of `RGB(255, 255, 255)`, the reverse-video fallback
background. -/
def whiteRGB : ColorV := ⟨lit "#ffffff"⟩

/-- The stransi SGR attribute constants handled in `update_attribute`. -/
inductive Attr where
  | normal | bold | dim | neitherBoldNorDim
  | italic | notItalic | underline | notUnderline
  | strikethrough | notStrikethrough | blink | notBlink
  | reverseVideo | notReverseVideo | hidden | notHidden
deriving DecidableEq

/-- The converter's mutable style state (`class ANSIHTML`). -/
structure ANSIHTML where
  fg : Option ColorV := none
  bg : Option ColorV := none
  bold : Bool := false
  dim : Bool := false
  italic : Bool := false
  underline : Bool := false
  strikethrough : Bool := false
  blink : Bool := false
  reverse : Bool := false
  hidden : Bool := false
deriving DecidableEq

/-- The all-default style state (`ANSIHTML()`). -/
def ansiInit : ANSIHTML := {}

/-- The `is_default` property: no field is set. -/
def is_default (st : ANSIHTML) : Bool :=
  st.fg.isNone && st.bg.isNone && !st.bold && !st.dim && !st.italic &&
    !st.underline && !st.strikethrough && !st.blink && !st.reverse && !st.hidden

/-- The `update_attribute` method, branch for branch. -/
def update_attribute (st : ANSIHTML) : Attr → ANSIHTML
  | .normal =>
    { st with
      fg := none
      bg := none
      bold := false
      dim := false
      italic := false
      underline := false
      blink := false
      hidden := false }
  | .bold => { st with bold := true, dim := false }
  | .dim => { st with dim := true, bold := false }
  | .neitherBoldNorDim => { st with bold := false, dim := false }
  | .italic => { st with italic := true }
  | .notItalic => { st with italic := false }
  | .underline => { st with underline := true }
  | .notUnderline => { st with underline := false }
  | .strikethrough => { st with strikethrough := true }
  | .notStrikethrough => { st with strikethrough := false }
  | .blink => { st with blink := true }
  | .notBlink => { st with blink := false }
  | .reverseVideo => { st with reverse := true }
  | .notReverseVideo => { st with reverse := false }
  | .hidden => { st with hidden := true }
  | .notHidden => { st with hidden := false }

/-- The font tag assembled inside `open_tags` when a color is set: under
reverse video the missing colors default to black/white and the pair is
swapped at render time. -/
def fontOpen (st : ANSIHTML) : Str :=
  let p : Option ColorV × Option ColorV :=
    if st.reverse
      then (some (st.bg.getD whiteRGB), some (st.fg.getD blackRGB))
      else (st.fg, st.bg)
  lit "<font" ++
    (match p.1 with
     | some c => lit " color=\"" ++ c.hex ++ lit "\""
     | none => []) ++
    (match p.2 with
     | some c => lit " data-mx-bg-color=\"" ++ c.hex ++ lit "\""
     | none => []) ++
    lit ">"

/-- The `open_tags` property: spoiler, then color, then bold, italic,
strikethrough, underline. -/
def open_tags (st : ANSIHTML) : Str :=
  (if st.hidden then lit "<span data-mx-spoiler>" else []) ++
  (if st.fg.isSome || st.bg.isSome then fontOpen st else []) ++
  (if st.bold then lit "<strong>" else []) ++
  (if st.italic then lit "<em>" else []) ++
  (if st.strikethrough then lit "<del>" else []) ++
  (if st.underline then lit "<u>" else [])

/-- The `close_tags` property: underline, strikethrough, italic, bold,
color, spoiler. -/
def close_tags (st : ANSIHTML) : Str :=
  (if st.underline then lit "</u>" else []) ++
  (if st.strikethrough then lit "</del>" else []) ++
  (if st.italic then lit "</em>" else []) ++
  (if st.bold then lit "</strong>" else []) ++
  (if st.fg.isSome || st.bg.isSome then lit "</font>" else []) ++
  (if st.hidden then lit "</span data-mx-spoiler>" else [])

/-- Which of the two SGR color roles a color instruction addresses. -/
inductive Role where
  | fgRole
  | bgRole
deriving DecidableEq

/-- One decoded stransi instruction: a literal text run, a color set
(possibly to the default, i.e. `none`), an attribute set, or any other
instruction kind, which the converter ignores. -/
inductive Instruction where
  | text (s : Str)
  | setColor (role : Role) (c : Option ColorV)
  | setAttr (a : Attr)
  | other
deriving DecidableEq

/-- The loop body of `_ansi_to_html` over the decoded instruction stream:
literal runs are escaped and wrapped in the current tags when the state is
non-default; color and attribute instructions update the state. -/
def renderIns : List Instruction → ANSIHTML → Str
  | [], _ => []
  | .text s :: rest, st =>
    (if is_default st then htmlEscape s
     else open_tags st ++ htmlEscape s ++ close_tags st) ++ renderIns rest st
  | .setColor role c :: rest, st =>
    renderIns rest (match role with
      | .fgRole => { st with fg := c }
      | .bgRole => { st with bg := c })
  | .setAttr a :: rest, st => renderIns rest (update_attribute st a)
  | .other :: rest, st => renderIns rest st

/-- `ansi_to_html`: the escape-sequence decoding performed by the external
stransi library is a parameter; it returns `none` when any step of
decoding the stream fails (a raised exception in the source), and the
converter then falls back to escaping the raw input. -/
def ansiToHtml (decode : Str → Option (List Instruction)) (text : Str) : Str :=
  match decode text with
  | none => htmlEscape text
  | some ins => renderIns ins ansiInit

/-- C4: whenever decoding the escape-sequence stream fails, `ansi_to_html`
returns exactly the HTML-escaping of the original input; the converter is
total, never propagating a failure. -/
theorem ansi_to_html_fallback (decode : Str → Option (List Instruction))
    (text : Str) (h : decode text = none) :
    ansiToHtml decode text = htmlEscape text := by
  rw [ansiToHtml, h]

/-- C4 witness: the fallback equation at a concrete failing decoder. -/
theorem ansi_to_html_fallback_witness :
    ansiToHtml (fun _ => none) (lit "\x1b[31m") = htmlEscape (lit "\x1b[31m") :=
  ansi_to_html_fallback (fun _ => none) (lit "\x1b[31m") rfl

/-- C7: a normal/reset attribute clears foreground, background, bold, dim,
italic, underline, blink and hidden, and leaves strikethrough and reverse
untouched. -/
theorem update_attribute_normal (st : ANSIHTML) :
    update_attribute st .normal =
      { fg := none
        bg := none
        bold := false
        dim := false
        italic := false
        underline := false
        strikethrough := st.strikethrough
        blink := false
        reverse := st.reverse
        hidden := false } ∧
    (update_attribute st .normal).strikethrough = st.strikethrough ∧
    (update_attribute st .normal).reverse = st.reverse := by
  cases st
  exact ⟨rfl, rfl, rfl⟩

/-- The six kinds of markup tag the converter can open around a literal
run, in the fixed outward-to-inward order used by `open_tags`. -/
inductive TagKind where
  | spoiler | color | bold | italic | strike | underline
deriving DecidableEq

/-- The fixed outward-to-inward nesting order of the converter's tags. -/
def tagOrder : List TagKind := [.spoiler, .color, .bold, .italic, .strike, .underline]

/-- The kinds of tags `open_tags` emits for a style state, in emission
order. -/
def openKinds (st : ANSIHTML) : List TagKind :=
  (if st.hidden then [TagKind.spoiler] else []) ++
  (if st.fg.isSome || st.bg.isSome then [TagKind.color] else []) ++
  (if st.bold then [TagKind.bold] else []) ++
  (if st.italic then [TagKind.italic] else []) ++
  (if st.strikethrough then [TagKind.strike] else []) ++
  (if st.underline then [TagKind.underline] else [])

/-- The opening markup emitted for one tag kind under a style state. -/
def openerStr (st : ANSIHTML) : TagKind → Str
  | .spoiler => lit "<span data-mx-spoiler>"
  | .color => fontOpen st
  | .bold => lit "<strong>"
  | .italic => lit "<em>"
  | .strike => lit "<del>"
  | .underline => lit "<u>"

/-- The closing markup emitted for one tag kind. -/
def closerStr : TagKind → Str
  | .spoiler => lit "</span data-mx-spoiler>"
  | .color => lit "</font>"
  | .bold => lit "</strong>"
  | .italic => lit "</em>"
  | .strike => lit "</del>"
  | .underline => lit "</u>"

/-- `open_tags` is exactly the concatenation of the per-kind openers in
the `openKinds` order. -/
lemma open_tags_eq_kinds (st : ANSIHTML) :
    open_tags st = ((openKinds st).map (openerStr st)).flatten := by
  obtain ⟨fg, bg, bold, dim, italic, underline, strike, blink, rev, hidden⟩ := st
  cases hidden <;> cases bold <;> cases italic <;> cases strike <;> cases underline <;>
    cases fg <;> cases bg <;>
    simp [open_tags, openKinds, openerStr]

/-- `close_tags` is exactly the concatenation of the per-kind closers in
the reversed `openKinds` order: every opened tag is closed in reverse. -/
lemma close_tags_eq_kinds (st : ANSIHTML) :
    close_tags st = ((openKinds st).reverse.map closerStr).flatten := by
  obtain ⟨fg, bg, bold, dim, italic, underline, strike, blink, rev, hidden⟩ := st
  cases hidden <;> cases bold <;> cases italic <;> cases strike <;> cases underline <;>
    cases fg <;> cases bg <;>
    simp [close_tags, openKinds, closerStr]

/-- The opened kinds always follow the fixed order spoiler, color, bold,
italic, strikethrough, underline. -/
lemma openKinds_sublist (st : ANSIHTML) : (openKinds st).Sublist tagOrder := by
  obtain ⟨fg, bg, bold, dim, italic, underline, strike, blink, rev, hidden⟩ := st
  cases hidden <;> cases bold <;> cases italic <;> cases strike <;> cases underline <;>
    cases fg <;> cases bg <;>
    simp [openKinds, tagOrder] <;> decide

/-- The structured renderer: each literal run under a non-default state is
wrapped by the openers of `openKinds` in order and the closers of the same
kinds in exactly reversed order. -/
def renderStructured : List Instruction → ANSIHTML → Str
  | [], _ => []
  | .text s :: rest, st =>
    (if is_default st then htmlEscape s
     else ((openKinds st).map (openerStr st)).flatten ++ htmlEscape s ++
       ((openKinds st).reverse.map closerStr).flatten) ++ renderStructured rest st
  | .setColor role c :: rest, st =>
    renderStructured rest (match role with
      | .fgRole => { st with fg := c }
      | .bgRole => { st with bg := c })
  | .setAttr a :: rest, st => renderStructured rest (update_attribute st a)
  | .other :: rest, st => renderStructured rest st

/-- The converter's renderer coincides with the structured renderer. -/
lemma renderIns_eq_structured (ins : List Instruction) (st : ANSIHTML) :
    renderIns ins st = renderStructured ins st := by
  induction ins generalizing st with
  | nil => rfl
  | cons i rest ih =>
    cases i with
    | text s =>
      show (if is_default st then htmlEscape s
        else open_tags st ++ htmlEscape s ++ close_tags st) ++ renderIns rest st = _
      rw [ih, open_tags_eq_kinds, close_tags_eq_kinds]
      rfl
    | setColor role c =>
      show renderIns rest _ = renderStructured (Instruction.setColor role c :: rest) st
      rw [ih]
      rfl
    | setAttr a => exact ih (update_attribute st a)
    | other => exact ih st

/-- C6: on every input whose escape sequences decode successfully, the
converter's output is the structured rendering in which each literal run
under a non-default state is wrapped by opening tags in the fixed
outward-to-inward order spoiler, color, bold, italic, strikethrough,
underline (a sublist of `tagOrder`) and by the matching closing tags in
exactly mirrored order. -/
theorem tag_nesting_well_formed (decode : Str → Option (List Instruction))
    (text : Str) (ins : List Instruction) (h : decode text = some ins) :
    ansiToHtml decode text = renderStructured ins ansiInit ∧
    (∀ st : ANSIHTML, open_tags st = ((openKinds st).map (openerStr st)).flatten ∧
      close_tags st = ((openKinds st).reverse.map closerStr).flatten ∧
      (openKinds st).Sublist tagOrder) := by
  constructor
  · rw [ansiToHtml, h]
    exact renderIns_eq_structured ins ansiInit
  · intro st
    exact ⟨open_tags_eq_kinds st, close_tags_eq_kinds st, openKinds_sublist st⟩

/-- C6 witness: the nesting theorem applied to a concrete decoded stream
(bold+hidden text), whose rendering shows mirrored closing order. -/
theorem tag_nesting_well_formed_witness :
    ansiToHtml
      (fun _ => some [.setAttr .bold, .setAttr .hidden, .text (lit "x")])
      (lit "in") =
      renderStructured [.setAttr .bold, .setAttr .hidden, .text (lit "x")]
        ansiInit :=
  (tag_nesting_well_formed
    (fun _ => some [.setAttr .bold, .setAttr .hidden, .text (lit "x")])
    (lit "in") [.setAttr .bold, .setAttr .hidden, .text (lit "x")] rfl).1

example :
    ansiToHtml
      (fun _ => some [.setAttr .bold, .setAttr .hidden, .text (lit "x")])
      (lit "in") =
      lit "<span data-mx-spoiler><strong>x</strong></span data-mx-spoiler>" := by
  decide

/-- The keyword arguments a command entry point passes to `_exec`, which
become the corresponding fields of the outbound JSON request. In raw mode
(`!!`/`!?`) the `script` key carries the blank-line-separated second block
of the message — the text the backend feeds to the command's standard
input — while the named commands put the program text there. -/
structure KwArgs where
  language : Str
  args : Option (List Str) := none
  raw : Bool := false
  script : Str
  admin : Bool := false
deriving DecidableEq

/-- Python `body.split("\n\n", 1)`: the first part, and the remainder
after the first blank line when present. -/
def splitBlank1 : Str → Str × Option Str
  | [] => ([], none)
  | '\n' :: '\n' :: rest => ([], some rest)
  | c :: rest =>
    let p := splitBlank1 rest
    (c :: p.1, p.2)

/-- Python `s.split(" ", 1)`. -/
def splitSpace1 : Str → Str × Option Str
  | [] => ([], none)
  | ' ' :: rest => ([], some rest)
  | c :: rest =>
    let p := splitSpace1 rest
    (c :: p.1, p.2)

/-- Python `s.split(" ")` (no maxsplit): split at every space, keeping
empty parts. -/
def splitSpaceAll : Str → List Str
  | [] => [[]]
  | c :: rest =>
    if c = ' ' then [] :: splitSpaceAll rest
    else
      match splitSpaceAll rest with
      | [] => [[c]]
      | p :: ps => (c :: p) :: ps

/-- The `arbitrary_cmd` handler's parse of a `!!`/`!?` message body into
the `_exec` keyword arguments (maush/maush.py lines 318-332). The
shell-quote-aware tokenizer used for `!?` bodies is the external `shlex`
library (declared out of scope by the spec); it is a parameter, with
`none` standing for a raised tokenization error, in which case no request
is made. The admission gate (`_exec_ok`) precedes this parse. -/
def arbitraryCmd (sx : Str → Option (List Str)) (body : Str) : Option KwArgs :=
  if ¬ (lit "!!" <+: body ∨ lit "!?" <+: body) then none
  else
    match (splitSpace1 (splitBlank1 body).1).2 with
    | none =>
      some { language := (splitSpace1 (splitBlank1 body).1).1.drop 2
             args := some [(splitSpace1 (splitBlank1 body).1).1.drop 2]
             raw := true
             script := (splitBlank1 body).2.getD [] }
    | some rest =>
      if (splitSpace1 (splitBlank1 body).1).1.take 2 = lit "!?" then
        match sx rest with
        | none => none
        | some extra =>
          some { language := (splitSpace1 (splitBlank1 body).1).1.drop 2
                 args := some ([(splitSpace1 (splitBlank1 body).1).1.drop 2] ++ extra)
                 raw := true
                 script := (splitBlank1 body).2.getD [] }
      else
        some { language := (splitSpace1 (splitBlank1 body).1).1.drop 2
               args := some ([(splitSpace1 (splitBlank1 body).1).1.drop 2]
                 ++ splitSpaceAll rest)
               raw := true
               script := (splitBlank1 body).2.getD [] }

/-- C5: `!!echo hi` parses as language `echo`, args `["echo", "hi"]`, raw
mode and empty stdin, and every `!!`/`!?` body whose parse succeeds sends
the blank-line-separated second block (when present) as the request's
standard-input text (the `script` field of a raw-mode request). -/
theorem arbitrary_cmd_parse (sx : Str → Option (List Str)) (body : Str)
    (kw : KwArgs) (blk : Str) (hparse : arbitraryCmd sx body = some kw)
    (hblk : (splitBlank1 body).2 = some blk) :
    kw.script = blk ∧
    (∀ sx2, arbitraryCmd sx2 (lit "!!echo hi") =
      some { language := lit "echo", args := some [lit "echo", lit "hi"],
             raw := true, script := [] }) := by
  constructor
  · rw [arbitraryCmd] at hparse
    by_cases hpre : ¬ (lit "!!" <+: body ∨ lit "!?" <+: body)
    · rw [if_pos hpre] at hparse
      exact absurd hparse (by simp)
    · rw [if_neg hpre] at hparse
      cases hsp : (splitSpace1 (splitBlank1 body).1).2 with
      | none =>
        rw [hsp] at hparse
        simp only [Option.some.injEq] at hparse
        rw [← hparse]
        simp [hblk]
      | some rest =>
        rw [hsp] at hparse
        dsimp only at hparse
        by_cases hq : (splitSpace1 (splitBlank1 body).1).1.take 2 = lit "!?"
        · rw [if_pos hq] at hparse
          cases hsx : sx rest with
          | none => rw [hsx] at hparse; exact absurd hparse (by simp)
          | some extra =>
            rw [hsx] at hparse
            simp only [Option.some.injEq] at hparse
            rw [← hparse]
            simp [hblk]
        · rw [if_neg hq] at hparse
          simp only [Option.some.injEq] at hparse
          rw [← hparse]
          simp [hblk]
  · intro sx2
    rfl

/-- C5 witness: the theorem applied to the body `!!a` followed by a blank
line and the stdin block `xy`, under a failing tokenizer. -/
theorem arbitrary_cmd_parse_witness :
    ({ language := lit "a", args := some [lit "a"], raw := true,
       script := lit "xy" } : KwArgs).script = lit "xy" ∧
    (∀ sx2, arbitraryCmd sx2 (lit "!!echo hi") =
      some { language := lit "echo", args := some [lit "echo", lit "hi"],
             raw := true, script := [] }) :=
  arbitrary_cmd_parse (fun _ => none) (lit "!!a\n\nxy")
    { language := lit "a", args := some [lit "a"], raw := true, script := lit "xy" }
    (lit "xy") (by decide) (by decide)

/-- One step of the reaction handler (maush/maush.py lines 304-316): when
the reaction targets a registered message id with key `delete` and the
sender is not the bot, the id is removed from the registry and the target
is redacted with the requester recorded in the reason; otherwise nothing
happens. -/
def reactionStep (botId : Str) (reg : Finset Str) (targetId key sender : Str) :
    Finset Str × Option (Str × Str) :=
  if targetId ∈ reg ∧ key = lit "delete" ∧ sender ≠ botId then
    (reg.erase targetId, some (targetId, lit "Delete requested by " ++ sender))
  else
    (reg, none)

/-- C8: a delete reaction from a non-bot sender on a registered message id
redacts it exactly once, with the requester in the reason; the id leaves
the registry, so a second identical reaction is a no-op. -/
theorem reaction_retracts_once (botId : Str) (reg : Finset Str)
    (targetId sender : Str) (hmem : targetId ∈ reg) (hsender : sender ≠ botId) :
    (reactionStep botId reg targetId (lit "delete") sender).2 =
      some (targetId, lit "Delete requested by " ++ sender) ∧
    targetId ∉ (reactionStep botId reg targetId (lit "delete") sender).1 ∧
    reactionStep botId
        (reactionStep botId reg targetId (lit "delete") sender).1
        targetId (lit "delete") sender =
      ((reactionStep botId reg targetId (lit "delete") sender).1, none) := by
  have hcond : targetId ∈ reg ∧ (lit "delete" : Str) = lit "delete" ∧ sender ≠ botId :=
    ⟨hmem, rfl, hsender⟩
  rw [reactionStep, if_pos hcond]
  refine ⟨rfl, Finset.not_mem_erase _ _, ?_⟩
  rw [reactionStep, if_neg ?_]
  intro hc
  exact absurd hc.1 (Finset.not_mem_erase _ _)

/-- C8 witness: the retraction theorem at a concrete registry. -/
theorem reaction_retracts_once_witness :
    (reactionStep (lit "@bot:s") {lit "$e"} (lit "$e") (lit "delete")
        (lit "@u:s")).2 =
      some (lit "$e", lit "Delete requested by " ++ lit "@u:s") ∧
    lit "$e" ∉ (reactionStep (lit "@bot:s") {lit "$e"} (lit "$e") (lit "delete")
        (lit "@u:s")).1 ∧
    reactionStep (lit "@bot:s")
        (reactionStep (lit "@bot:s") {lit "$e"} (lit "$e") (lit "delete")
          (lit "@u:s")).1
        (lit "$e") (lit "delete") (lit "@u:s") =
      ((reactionStep (lit "@bot:s") {lit "$e"} (lit "$e") (lit "delete")
        (lit "@u:s")).1, none) :=
  reaction_retracts_once (lit "@bot:s") {lit "$e"} (lit "$e") (lit "@u:s")
    (Finset.mem_singleton_self _) (by decide)

/-- Decimal rendering of a natural number, as Python `str`. -/
def natToStr (n : Nat) : Str := (toString n).data

/-- Decimal rendering of an integer, as Python `str`. -/
def intToStr (i : Int) : Str := (toString i).data

/-- The reply duration in tenths of a millisecond, rounding half to even
as Python `round` does. The source divides nanoseconds by 1e6 in floating
point first; binary-float ties can differ from exact arithmetic, but no
claim touches the duration text. -/
def durTenths (ns : Nat) : Nat :=
  if 50000 < ns % 100000 then ns / 100000 + 1
  else if ns % 100000 < 50000 then ns / 100000
  else if (ns / 100000) % 2 = 0 then ns / 100000 else ns / 100000 + 1

/-- The displayed duration: milliseconds with one decimal digit. -/
def formatDuration (ns : Nat) : Str :=
  natToStr (durTenths ns / 10) ++ '.' :: natToStr (durTenths ns % 10)

/-- The status line opening the success reply: exit code and duration. -/
def statusLine (ret : Int) (ns : Nat) : Str :=
  if ret ≠ 0 then
    lit "Exited with code " ++ intToStr ret ++ lit " in " ++ formatDuration ns
      ++ lit " ms. "
  else
    lit "Completed in " ++ formatDuration ns ++ lit " ms. "

/-- Python `re.sub(r"//+", "/", s)`: collapse every run of slashes to one. -/
def collapseSlashes : Str → Str
  | [] => []
  | '/' :: rest => '/' :: collapseSlashes (rest.dropWhile (fun c => c = '/'))
  | c :: rest => c :: collapseSlashes rest
termination_by l => l.length
decreasing_by
  · simp only [List.length_cons]
    have := (List.dropWhile_suffix (l := rest) (fun c => c = '/')).sublist.length_le
    omega
  · simp only [List.length_cons]
    omega

/-- One character admitted by `allowed_localpart_regex`
(`^[A-Za-z0-9._=+-]+$`). -/
def allowedLocalpartChar (c : Char) : Bool :=
  ('A' ≤ c && c ≤ 'Z') || ('a' ≤ c && c ≤ 'z') || ('0' ≤ c && c ≤ '9') ||
    c = '.' || c = '_' || c = '=' || c = '+' || c = '-'

/-- The localpart check: nonempty and all characters admitted. -/
def localpartAllowed (s : Str) : Bool :=
  !s.isEmpty && s.all allowedLocalpartChar

/-- Split at the first colon: the part before it and the part after (empty
when there is no colon). -/
def splitColonFirst : Str → Str × Str
  | [] => ([], [])
  | ':' :: rest => ([], rest)
  | c :: rest =>
    let p := splitColonFirst rest
    (c :: p.1, p.2)

/-- The transport's `parse_user_id` helper (external mautrix library):
`@localpart:server` yields the pair, and a sender without the `@` sigil
raises, aborting the handler with no reply (`none` here). -/
def parseUserId (s : Str) : Option (Str × Str) :=
  match s with
  | '@' :: rest => some (splitColonFirst rest)
  | _ => none

/-- The plugin configuration consumed by the handler. -/
structure BotConfig where
  rooms : List Str
  admins : List Str
  untrusted : List Str
  botId : Str
deriving DecidableEq

/-- The fields of an inbound message event the handler inspects. -/
structure EvtInfo where
  roomId : Str
  sender : Str
  msgtypeText : Bool
deriving DecidableEq

/-- The cached room metadata (name, topic, avatar reference). -/
structure MetaState where
  name : Str
  topic : Str
  avatar : Str
deriving DecidableEq

/-- The optional output-file record of a backend response, with the
base64 content already decoded to bytes (the decode is Python's base64
library). -/
structure OutFile where
  name : Str
  mimetype : Str
  content : List Nat
deriving DecidableEq

/-- The parsed JSON body of a successful HTTP exchange with the backend. -/
structure RespData where
  ok : Bool
  error : Str
  duration : Nat
  ret : Int
  timeout : Bool
  stdout : Str
  stderr : Str
  devName : Option Str
  devTopic : Option Str
  devAvatar : Option Str
  outFile : Option OutFile
deriving DecidableEq

/-- The outcome of the backend POST: a transport failure, the
distinguished 502 status, or a parsed JSON body. -/
inductive BackendResult where
  | netFail
  | down502
  | answered (d : RespData)
deriving DecidableEq

/-- The message subtype chosen for an output file by MIME prefix. -/
inductive MsgType where
  | file | image | video | audio
deriving DecidableEq

/-- MIME prefix dispatch for the output-file reply. -/
def mimeKind (m : Str) : MsgType :=
  match m with
  | 'i' :: 'm' :: 'a' :: 'g' :: 'e' :: '/' :: _ => .image
  | 'v' :: 'i' :: 'd' :: 'e' :: 'o' :: '/' :: _ => .video
  | 'a' :: 'u' :: 'd' :: 'i' :: 'o' :: '/' :: _ => .audio
  | _ => .file

/-- One outward action of the handler, in emission order: a plain reply, a
rendered (HTML) reply, registering the last reply in the pending-deletion
registry, attaching a reaction, publishing a room-state value, or sending
an uploaded media reply. -/
inductive Act where
  | reply (body : Str)
  | replyHtml (body : Str)
  | register
  | react (key : Str)
  | setName (v : Str)
  | setTopic (v : Str)
  | setAvatar (v : Str)
  | sendMedia (filename mime : Str) (msgtype : MsgType) (size : Nat)
deriving DecidableEq

/-- The outbound request record `_exec` posts to the backend (the devices
hold the raw values; each is base64-encoded on the wire). -/
structure ExecRequest where
  kw : KwArgs
  user : Str
  home : Str
  untrusted : Bool
  devices : List (Str × Str)
deriving DecidableEq

/-- The result of one `_exec` invocation: the request it posted (if it got
that far), the ordered outward actions, and the metadata cache afterwards. -/
structure ExecOutcome where
  request : Option ExecRequest
  actions : List Act
  meta : MetaState
deriving DecidableEq

/-- The admission check `_exec_ok`: allowed room, plain-text message,
sender is not the bot itself. -/
abbrev execAdmitted (cfg : BotConfig) (evt : EvtInfo) : Prop :=
  evt.roomId ∈ cfg.rooms ∧ evt.msgtypeText = true ∧ evt.sender ≠ cfg.botId

/-- A proposed device value normalized as in `_exec`: missing or empty
becomes empty, anything else is stripped. -/
def normDev (o : Option Str) : Str :=
  match o with
  | none => []
  | some v => if v = [] then [] else pyStrip v

/-- Python `new_avatar.startswith("mxc://")`. -/
def mxcOk (s : Str) : Bool :=
  match s with
  | 'm' :: 'x' :: 'c' :: ':' :: '/' :: '/' :: _ => true
  | _ => false

/-- The trust-gate condition of `_exec` (maush/maush.py lines 231-242),
over the already-normalized proposed values: (sender untrusted, or the new
name over 100 characters while differing, or the new topic over 1000
characters while differing, or the new avatar not an mxc reference or over
100 characters while differing and non-empty) and at least one field
changed. -/
def gateCond (untrusted : Bool) (old : MetaState) (nn nt na : Str) : Prop :=
  (untrusted = true ∨
   (100 < nn.length ∧ nn ≠ old.name) ∨
   (1000 < nt.length ∧ nt ≠ old.topic) ∨
   ((mxcOk na = false ∨ 100 < na.length) ∧ na ≠ old.avatar ∧ na ≠ [])) ∧
  (nn ≠ old.name ∨ nt ≠ old.topic ∨ na ≠ old.avatar)

instance (u : Bool) (old : MetaState) (nn nt na : Str) :
    Decidable (gateCond u old nn nt na) := by
  unfold gateCond
  infer_instance

/-- The metadata mutation step of `_exec` (maush/maush.py lines 221-265):
normalize the proposed values, reject outright with the fixed refusal
reply when the trust gate fires, otherwise publish each changed field and
update the cache. Returns the emitted actions, the cache afterwards, and
whether the gate rejected. -/
def applyMeta (untrusted : Bool) (old : MetaState) (dn dt da : Option Str) :
    List Act × MetaState × Bool :=
  if gateCond untrusted old (normDev dn) (normDev dt) (normDev da)
  then ([Act.reply (lit "3:<")], old, true)
  else
    ((if normDev dn ≠ old.name then [Act.setName (normDev dn)] else []) ++
     (if normDev dt ≠ old.topic then [Act.setTopic (normDev dt)] else []) ++
     (if normDev da ≠ old.avatar then [Act.setAvatar (normDev da)] else []),
     ⟨if normDev dn ≠ old.name then normDev dn else old.name,
      if normDev dt ≠ old.topic then normDev dt else old.topic,
      if normDev da ≠ old.avatar then normDev da else old.avatar⟩,
     false)

/-- The labeled preformatted block for one non-empty output stream, with
the truncated text run through the ANSI converter. -/
def streamBlock (decode : Str → Option (List Instruction)) (label : String)
    (s : Str) : Str :=
  if s = [] then []
  else lit "**" ++ lit label ++ lit ":**\n<pre><code>" ++
    ansiToHtml decode (truncOut s) ++ lit "\n</code></pre>\n"

/-- The composed success reply: status line, timeout marker, stdout and
stderr blocks, stripped. -/
def composeResp (decode : Str → Option (List Instruction)) (d : RespData) : Str :=
  pyStrip (statusLine d.ret d.duration ++
    ((if d.timeout then lit "**Execution timed out**. " else []) ++
     (streamBlock decode "stdout" d.stdout ++ streamBlock decode "stderr" d.stderr)))

/-- The reply/register/react triple for the composed output, emitted only
when the stripped composition is non-empty. -/
def outputActions (decode : Str → Option (List Instruction)) (d : RespData) :
    List Act :=
  if composeResp decode d = [] then []
  else [Act.replyHtml (composeResp decode d), Act.register,
    Act.react (lit "delete")]

/-- The media reply for an output-file record, registered for deletion
like the text reply. -/
def fileActions (o : Option OutFile) : List Act :=
  match o with
  | none => []
  | some f => [Act.sendMedia f.name f.mimetype (mimeKind f.mimetype)
      f.content.length, Act.register, Act.react (lit "delete")]

/-- The device bundle entries contributed by the cached room metadata:
each non-empty value under its fixed key. -/
def metaDevices (old : MetaState) : List (Str × Str) :=
  (if old.name ≠ [] then [(lit "name", old.name)] else []) ++
  (if old.topic ≠ [] then [(lit "topic", old.topic)] else []) ++
  (if old.avatar ≠ [] then [(lit "avatar-mxc", old.avatar)] else [])

/-- The request record `_exec` builds for an admitted sender. -/
def mkRequest (cfg : BotConfig) (evt : EvtInfo) (kw : KwArgs) (old : MetaState)
    (replyDevs : List (Str × Str)) (ls : Str × Str) : ExecRequest :=
  { kw := kw
    user := evt.sender
    home := collapseSlashes ('/' :: ls.2 ++ '/' :: ls.1)
    untrusted := decide (evt.sender ∈ cfg.untrusted)
    devices := metaDevices old ++ replyDevs }

/-- The success tail of `_exec`: emit the composed output reply, then run
the metadata step; on rejection stop (discarding any output file), else
apply the mutations and send the output file. -/
def execSuccess (decode : Str → Option (List Instruction)) (untrusted : Bool)
    (old : MetaState) (d : RespData) (req : ExecRequest) : ExecOutcome :=
  if (applyMeta untrusted old d.devName d.devTopic d.devAvatar).2.2 = true then
    { request := some req
      actions := outputActions decode d ++
        (applyMeta untrusted old d.devName d.devTopic d.devAvatar).1
      meta := old }
  else
    { request := some req
      actions := outputActions decode d ++
        (applyMeta untrusted old d.devName d.devTopic d.devAvatar).1 ++
        fileActions d.outFile
      meta := (applyMeta untrusted old d.devName d.devTopic d.devAvatar).2.1 }

/-- The `_exec` handler (maush/maush.py lines 128-296) as a function of
its inputs and the backend's behaviour. The replied-to message fetch and
media download are transport I/O; their contribution to the device bundle
is the `replyDevs` parameter. A sender failing `parse_user_id` aborts with
no actions (the raise propagates before any reply). -/
def handleExec (cfg : BotConfig) (decode : Str → Option (List Instruction))
    (evt : EvtInfo) (kw : KwArgs) (old : MetaState)
    (replyDevs : List (Str × Str)) (orac : BackendResult) : ExecOutcome :=
  if ¬ execAdmitted cfg evt then { request := none, actions := [], meta := old }
  else
    match parseUserId evt.sender with
    | none => { request := none, actions := [], meta := old }
    | some ls =>
      if ¬ localpartAllowed ls.1 = true then
        { request := none, actions := [Act.reply (lit "User ID not supported")]
          meta := old }
      else
        match orac with
        | .netFail =>
          { request := some (mkRequest cfg evt kw old replyDevs ls)
            actions := [Act.reply (lit "Failed to send request to maush")]
            meta := old }
        | .down502 =>
          { request := some (mkRequest cfg evt kw old replyDevs ls)
            actions := [Act.reply (lit "maush is currently down")]
            meta := old }
        | .answered d =>
          if d.ok = false then
            { request := some (mkRequest cfg evt kw old replyDevs ls)
              actions := [Act.reply d.error]
              meta := old }
          else
            execSuccess decode (decide (evt.sender ∈ cfg.untrusted)) old d
              (mkRequest cfg evt kw old replyDevs ls)

/-- The refusal reply sent to a non-admin using `sudo` or `admin-sh`. -/
def sudoersRefusal (sender : Str) : Str :=
  lit "`" ++ sender ++
    lit "` is not in the sudoers file. This incident will be [reported](https://xkcd.com/838/)."

/-- The `sudo` command handler (maush/maush.py lines 344-354): admins only;
the event's sender is overwritten with the target user before `_exec`
runs. -/
def sudoCmd (cfg : BotConfig) (decode : Str → Option (List Instruction))
    (evt : EvtInfo) (target : Str) (script : Str) (old : MetaState)
    (replyDevs : List (Str × Str)) (orac : BackendResult) : ExecOutcome :=
  if ¬ evt.sender ∈ cfg.admins then
    { request := none, actions := [Act.reply (sudoersRefusal evt.sender)]
      meta := old }
  else
    handleExec cfg decode { evt with sender := target }
      { language := lit "sh", script := script, admin := true } old replyDevs orac

/-- A rejected metadata step is exactly the fixed refusal with nothing
applied or cached. -/
lemma applyMeta_rejected (u : Bool) (old : MetaState) (dn dt da : Option Str)
    (h : (applyMeta u old dn dt da).2.2 = true) :
    applyMeta u old dn dt da = ([Act.reply (lit "3:<")], old, true) := by
  by_cases hg : gateCond u old (normDev dn) (normDev dt) (normDev da)
  · rw [applyMeta, if_pos hg]
  · rw [applyMeta, if_neg hg] at h
    exact absurd h (by simp)

/-- C1: given a successful response whose normalized proposed values
changed in at least one field, the mutation is rejected outright — the
fixed refusal is the only emitted action and nothing is applied or
cached — if and only if the sender is untrusted, or the name exceeds 100
characters while differing, or the topic exceeds 1000 characters while
differing, or the avatar is non-empty, differs, and is not an mxc
reference or exceeds 100 characters. -/
theorem metadata_trust_gate (u : Bool) (old : MetaState) (dn dt da : Option Str)
    (hch : normDev dn ≠ old.name ∨ normDev dt ≠ old.topic ∨
      normDev da ≠ old.avatar) :
    ((applyMeta u old dn dt da).2.2 = true ↔
      (u = true ∨
       (100 < (normDev dn).length ∧ normDev dn ≠ old.name) ∨
       (1000 < (normDev dt).length ∧ normDev dt ≠ old.topic) ∨
       (normDev da ≠ [] ∧ normDev da ≠ old.avatar ∧
         (mxcOk (normDev da) = false ∨ 100 < (normDev da).length)))) ∧
    ((applyMeta u old dn dt da).2.2 = true →
      (applyMeta u old dn dt da).1 = [Act.reply (lit "3:<")] ∧
      (applyMeta u old dn dt da).2.1 = old) := by
  constructor
  · by_cases hg : gateCond u old (normDev dn) (normDev dt) (normDev da)
    · rw [applyMeta, if_pos hg]
      constructor
      · intro _
        rcases hg with ⟨hgl, _⟩
        tauto
      · intro _
        rfl
    · rw [applyMeta, if_neg hg]
      constructor
      · intro hr
        exact absurd hr (by simp)
      · intro hr
        refine absurd ?_ hg
        unfold gateCond
        exact ⟨by tauto, hch⟩
  · intro h
    rw [applyMeta_rejected u old dn dt da h]
    exact ⟨rfl, rfl⟩

/-- C1 witness: with a trusted sender and empty caches, a proposed name of
exactly 101 characters is rejected and one of exactly 100 characters is
not. -/
theorem metadata_trust_gate_witness :
    (applyMeta false ⟨[], [], []⟩ (some (List.replicate 101 'a')) none none).2.2
      = true ∧
    (applyMeta false ⟨[], [], []⟩ (some (List.replicate 100 'a')) none none).2.2
      = false := by
  constructor
  · exact (metadata_trust_gate false ⟨[], [], []⟩ (some (List.replicate 101 'a'))
      none none (by decide)).1.mpr (by decide)
  · have hiff := (metadata_trust_gate false ⟨[], [], []⟩
      (some (List.replicate 100 'a')) none none (by decide)).1
    have hno : ¬ ((false : Bool) = true ∨
       (100 < (normDev (some (List.replicate 100 'a'))).length ∧
         normDev (some (List.replicate 100 'a')) ≠ (⟨[], [], []⟩ : MetaState).name) ∨
       (1000 < (normDev (none : Option Str)).length ∧
         normDev (none : Option Str) ≠ (⟨[], [], []⟩ : MetaState).topic) ∨
       (normDev (none : Option Str) ≠ [] ∧
         normDev (none : Option Str) ≠ (⟨[], [], []⟩ : MetaState).avatar ∧
         (mxcOk (normDev (none : Option Str)) = false ∨
           100 < (normDev (none : Option Str)).length))) := by decide
    exact Bool.eq_false_iff.mpr (fun h => hno (hiff.mp h))

/-- Dropping whitespace from a list ending in a non-space character leaves
something. -/
lemma dropWhile_concat_ne_nil (xs : Str) (a : Char) (ha : pySpace a = false) :
    (xs ++ [a]).dropWhile pySpace ≠ [] := by
  induction xs with
  | nil => simp [List.dropWhile_cons, ha]
  | cons x t ih =>
    rw [List.cons_append, List.dropWhile_cons]
    by_cases hx : pySpace x
    · rw [if_pos hx]
      exact ih
    · rw [if_neg hx]
      simp

/-- Stripping a string with a non-space head leaves something. -/
lemma pyStrip_cons_ne_nil (c : Char) (l : Str) (hc : pySpace c = false) :
    pyStrip (c :: l) ≠ [] := by
  rw [pyStrip, List.dropWhile_cons, if_neg (by simp [hc]), stripEnd]
  intro h
  have h2 : List.dropWhile pySpace (c :: l).reverse = [] := by
    have := congrArg List.reverse h
    simpa using this
  rw [show (c :: l).reverse = l.reverse ++ [c] by simp] at h2
  exact dropWhile_concat_ne_nil _ _ hc h2

/-- The composed success reply is never empty: it opens with the status
line, whose first character is `E` or `C`. -/
lemma composeResp_ne_nil (decode : Str → Option (List Instruction))
    (d : RespData) : composeResp decode d ≠ [] := by
  rw [composeResp]
  by_cases h : d.ret ≠ 0
  · rw [statusLine, if_pos h]
    exact pyStrip_cons_ne_nil 'E' _ (by decide)
  · rw [statusLine, if_neg h]
    exact pyStrip_cons_ne_nil 'C' _ (by decide)

/-- The `_exec` handler on an admitted sender with a parsed user id, an
allowed localpart and a parsed successful response runs the success tail
on the built request. -/
lemma handleExec_success (cfg : BotConfig)
    (decode : Str → Option (List Instruction)) (evt : EvtInfo) (kw : KwArgs)
    (old : MetaState) (replyDevs : List (Str × Str)) (d : RespData)
    (ls : Str × Str) (hadm : execAdmitted cfg evt)
    (hparse : parseUserId evt.sender = some ls)
    (hlp : localpartAllowed ls.1 = true) (hok : d.ok = true) :
    handleExec cfg decode evt kw old replyDevs (.answered d) =
      execSuccess decode (decide (evt.sender ∈ cfg.untrusted)) old d
        (mkRequest cfg evt kw old replyDevs ls) := by
  rw [handleExec, if_neg (not_not_intro hadm), hparse]
  dsimp only
  rw [if_neg (not_not_intro hlp), if_neg (by simp [hok])]

/-- C2 (amended): on the trust-gate-rejection path the refusal reply is
sent, the proposed changes are discarded (no state events, no cache
update, no output file), but the stdout/stderr output reply for the run
has already been sent before the gate is evaluated, so the run's output is
shown to the room first. -/
theorem trust_gate_rejection_path (cfg : BotConfig)
    (decode : Str → Option (List Instruction)) (evt : EvtInfo) (kw : KwArgs)
    (old : MetaState) (replyDevs : List (Str × Str)) (d : RespData)
    (ls : Str × Str) (hadm : execAdmitted cfg evt)
    (hparse : parseUserId evt.sender = some ls)
    (hlp : localpartAllowed ls.1 = true) (hok : d.ok = true)
    (hrej : (applyMeta (decide (evt.sender ∈ cfg.untrusted)) old d.devName
      d.devTopic d.devAvatar).2.2 = true) :
    (handleExec cfg decode evt kw old replyDevs (.answered d)).actions =
      [Act.replyHtml (composeResp decode d), Act.register,
       Act.react (lit "delete"), Act.reply (lit "3:<")] ∧
    (handleExec cfg decode evt kw old replyDevs (.answered d)).meta = old ∧
    (∀ v, Act.setName v ∉ (handleExec cfg decode evt kw old replyDevs
        (.answered d)).actions ∧
      Act.setTopic v ∉ (handleExec cfg decode evt kw old replyDevs
        (.answered d)).actions ∧
      Act.setAvatar v ∉ (handleExec cfg decode evt kw old replyDevs
        (.answered d)).actions) ∧
    (∀ f m mt sz, Act.sendMedia f m mt sz ∉ (handleExec cfg decode evt kw old
      replyDevs (.answered d)).actions) := by
  have hEx := handleExec_success cfg decode evt kw old replyDevs d ls hadm
    hparse hlp hok
  have hActs : (handleExec cfg decode evt kw old replyDevs
      (.answered d)).actions =
      [Act.replyHtml (composeResp decode d), Act.register,
       Act.react (lit "delete"), Act.reply (lit "3:<")] := by
    rw [hEx, execSuccess, if_pos hrej,
      applyMeta_rejected _ _ _ _ _ hrej]
    show outputActions decode d ++ [Act.reply (lit "3:<")] = _
    rw [outputActions, if_neg (composeResp_ne_nil decode d)]
    rfl
  refine ⟨hActs, ?_, ?_, ?_⟩
  · rw [hEx, execSuccess, if_pos hrej]
  · intro v
    rw [hActs]
    refine ⟨by simp, by simp, by simp⟩
  · intro f m mt sz
    rw [hActs]
    simp

/-- C2 counterexample: a concrete rejected run (untrusted sender, nonempty
stdout, changed name) sends the output reply to the room before the
refusal, so the handler does not send only the fixed refusal and the
stdout is shown. -/
theorem trust_gate_rejection_counterexample :
    (handleExec ⟨[lit "!r"], [], [lit "@u:s"], lit "@bot:s"⟩ (fun _ => none)
        ⟨lit "!r", lit "@u:s", true⟩ ⟨lit "sh", none, false, lit "x", false⟩
        ⟨[], [], []⟩ [] (.answered ⟨true, [], 0, 0, false, lit "hi", [],
          some (lit "nm"), none, none, none⟩)).actions =
      [Act.replyHtml
        (lit "Completed in 0.0 ms. **stdout:**\n<pre><code>hi\n</code></pre>"),
       Act.register, Act.react (lit "delete"), Act.reply (lit "3:<")] ∧
    (handleExec ⟨[lit "!r"], [], [lit "@u:s"], lit "@bot:s"⟩ (fun _ => none)
        ⟨lit "!r", lit "@u:s", true⟩ ⟨lit "sh", none, false, lit "x", false⟩
        ⟨[], [], []⟩ [] (.answered ⟨true, [], 0, 0, false, lit "hi", [],
          some (lit "nm"), none, none, none⟩)).actions ≠
      [Act.reply (lit "3:<")] := by
  refine ⟨by decide, by decide⟩

/-- C2 witness: the rejection-path theorem at a concrete rejected run. -/
theorem trust_gate_rejection_path_witness :
    (handleExec ⟨[lit "!r"], [], [lit "@w:s"], lit "@bot:s"⟩ (fun _ => none)
        ⟨lit "!r", lit "@w:s", true⟩ ⟨lit "sh", none, false, lit "y", false⟩
        ⟨[], [], []⟩ [] (.answered ⟨true, [], 0, 0, false, [], lit "oops",
          none, some (lit "tp"), none, none⟩)).actions =
      [Act.replyHtml (composeResp (fun _ => none)
         ⟨true, [], 0, 0, false, [], lit "oops", none, some (lit "tp"), none,
          none⟩), Act.register, Act.react (lit "delete"),
       Act.reply (lit "3:<")] ∧
    (handleExec ⟨[lit "!r"], [], [lit "@w:s"], lit "@bot:s"⟩ (fun _ => none)
        ⟨lit "!r", lit "@w:s", true⟩ ⟨lit "sh", none, false, lit "y", false⟩
        ⟨[], [], []⟩ [] (.answered ⟨true, [], 0, 0, false, [], lit "oops",
          none, some (lit "tp"), none, none⟩)).meta = ⟨[], [], []⟩ :=
  ⟨(trust_gate_rejection_path ⟨[lit "!r"], [], [lit "@w:s"], lit "@bot:s"⟩
      (fun _ => none) ⟨lit "!r", lit "@w:s", true⟩
      ⟨lit "sh", none, false, lit "y", false⟩ ⟨[], [], []⟩ []
      ⟨true, [], 0, 0, false, [], lit "oops", none, some (lit "tp"), none, none⟩
      (lit "w", lit "s") (by decide) (by decide) (by decide) (by decide)
      (by decide)).1,
   (trust_gate_rejection_path ⟨[lit "!r"], [], [lit "@w:s"], lit "@bot:s"⟩
      (fun _ => none) ⟨lit "!r", lit "@w:s", true⟩
      ⟨lit "sh", none, false, lit "y", false⟩ ⟨[], [], []⟩ []
      ⟨true, [], 0, 0, false, [], lit "oops", none, some (lit "tp"), none, none⟩
      (lit "w", lit "s") (by decide) (by decide) (by decide) (by decide)
      (by decide)).2.1⟩

/-- C10: the sudo command with an admin sender behaves exactly as `_exec`
invoked with the event's sender replaced by the target user; the outbound
request carries the target's untrusted flag, and when the target is
untrusted and the successful response proposes a changed metadata value,
the proposal is rejected (refusal sent, nothing applied, no output file)
while the admission check was evaluated against the target. -/
theorem sudo_acts_as_target (cfg : BotConfig)
    (decode : Str → Option (List Instruction)) (evt : EvtInfo) (target : Str)
    (script : Str) (old : MetaState) (replyDevs : List (Str × Str))
    (d : RespData) (ls : Str × Str) (hadmin : evt.sender ∈ cfg.admins)
    (hadm : execAdmitted cfg { evt with sender := target })
    (hparse : parseUserId target = some ls)
    (hlp : localpartAllowed ls.1 = true) (hok : d.ok = true)
    (huntr : target ∈ cfg.untrusted)
    (hch : normDev d.devName ≠ old.name ∨ normDev d.devTopic ≠ old.topic ∨
      normDev d.devAvatar ≠ old.avatar) :
    sudoCmd cfg decode evt target script old replyDevs (.answered d) =
      handleExec cfg decode { evt with sender := target }
        { language := lit "sh", script := script, admin := true } old replyDevs
        (.answered d) ∧
    (∃ req, (sudoCmd cfg decode evt target script old replyDevs
        (.answered d)).request = some req ∧ req.untrusted = true ∧
        req.user = target) ∧
    (sudoCmd cfg decode evt target script old replyDevs (.answered d)).actions =
      outputActions decode d ++ [Act.reply (lit "3:<")] ∧
    (sudoCmd cfg decode evt target script old replyDevs (.answered d)).meta =
      old := by
  have hSudo : sudoCmd cfg decode evt target script old replyDevs
      (.answered d) =
      handleExec cfg decode { evt with sender := target }
        { language := lit "sh", script := script, admin := true } old replyDevs
        (.answered d) := by
    rw [sudoCmd, if_neg (not_not_intro hadmin)]
  have hEx := handleExec_success cfg decode { evt with sender := target }
    { language := lit "sh", script := script, admin := true } old replyDevs d
    ls hadm hparse hlp hok
  have huflag : decide (({ evt with sender := target } : EvtInfo).sender ∈
      cfg.untrusted) = true := by
    simp only [decide_eq_true_eq]
    exact huntr
  have hrej : (applyMeta (decide (({ evt with sender := target } :
      EvtInfo).sender ∈ cfg.untrusted)) old d.devName d.devTopic
      d.devAvatar).2.2 = true := by
    rw [huflag, applyMeta, if_pos (by unfold gateCond; exact ⟨Or.inl rfl, hch⟩)]
  refine ⟨hSudo, ?_, ?_, ?_⟩
  · refine ⟨mkRequest cfg { evt with sender := target }
      { language := lit "sh", script := script, admin := true } old replyDevs
      ls, ?_, ?_, rfl⟩
    · rw [hSudo, hEx, execSuccess]
      by_cases hb : (applyMeta (decide (({ evt with sender := target } :
          EvtInfo).sender ∈ cfg.untrusted)) old d.devName d.devTopic
          d.devAvatar).2.2 = true
      · rw [if_pos hb]
      · rw [if_neg hb]
    · exact huflag
  · rw [hSudo, hEx, execSuccess, if_pos hrej, applyMeta_rejected _ _ _ _ _ hrej]
  · rw [hSudo, hEx, execSuccess, if_pos hrej]

/-- C10 witness: sudo by an admin targeting an untrusted user, at concrete
values — the request goes out with the untrusted flag set and the changed
name proposal is refused. -/
theorem sudo_acts_as_target_witness :
    sudoCmd ⟨[lit "!r"], [lit "@a:s"], [lit "@u:s"], lit "@bot:s"⟩
        (fun _ => none) ⟨lit "!r", lit "@a:s", true⟩ (lit "@u:s") (lit "id")
        ⟨[], [], []⟩ [] (.answered ⟨true, [], 0, 0, false, [], [],
          some (lit "nm"), none, none, none⟩) =
      handleExec ⟨[lit "!r"], [lit "@a:s"], [lit "@u:s"], lit "@bot:s"⟩
        (fun _ => none) ⟨lit "!r", lit "@u:s", true⟩
        { language := lit "sh", script := lit "id", admin := true }
        ⟨[], [], []⟩ [] (.answered ⟨true, [], 0, 0, false, [], [],
          some (lit "nm"), none, none, none⟩) ∧
    (∃ req, (sudoCmd ⟨[lit "!r"], [lit "@a:s"], [lit "@u:s"], lit "@bot:s"⟩
        (fun _ => none) ⟨lit "!r", lit "@a:s", true⟩ (lit "@u:s") (lit "id")
        ⟨[], [], []⟩ [] (.answered ⟨true, [], 0, 0, false, [], [],
          some (lit "nm"), none, none, none⟩)).request = some req ∧
      req.untrusted = true ∧ req.user = lit "@u:s") ∧
    (sudoCmd ⟨[lit "!r"], [lit "@a:s"], [lit "@u:s"], lit "@bot:s"⟩
        (fun _ => none) ⟨lit "!r", lit "@a:s", true⟩ (lit "@u:s") (lit "id")
        ⟨[], [], []⟩ [] (.answered ⟨true, [], 0, 0, false, [], [],
          some (lit "nm"), none, none, none⟩)).actions =
      outputActions (fun _ => none) ⟨true, [], 0, 0, false, [], [],
        some (lit "nm"), none, none, none⟩ ++ [Act.reply (lit "3:<")] ∧
    (sudoCmd ⟨[lit "!r"], [lit "@a:s"], [lit "@u:s"], lit "@bot:s"⟩
        (fun _ => none) ⟨lit "!r", lit "@a:s", true⟩ (lit "@u:s") (lit "id")
        ⟨[], [], []⟩ [] (.answered ⟨true, [], 0, 0, false, [], [],
          some (lit "nm"), none, none, none⟩)).meta = ⟨[], [], []⟩ := by
  have h := sudo_acts_as_target
    ⟨[lit "!r"], [lit "@a:s"], [lit "@u:s"], lit "@bot:s"⟩ (fun _ => none)
    ⟨lit "!r", lit "@a:s", true⟩ (lit "@u:s") (lit "id") ⟨[], [], []⟩ []
    ⟨true, [], 0, 0, false, [], [], some (lit "nm"), none, none, none⟩
    (lit "u", lit "s") (by decide) (by decide) (by decide) (by decide)
    (by decide) (by decide) (by decide)
  exact h
